import Mathlib

/-!
Shallow embedding of the room-scoped drawing-log server
(`src/server/drawing-state.js` and `src/server/rooms.js`).

JavaScript objects carrying candidate operations are modelled as records of
optional dynamically-typed values (`JsVal`): an absent field is `none`, a
present field carries its runtime value.  JS numbers are modelled as `Int`
(the server only compares them to zero); JS arrays are modelled by their
length, which is the only thing the server code reads from them.
-/

/-- A dynamically-typed JavaScript value, as far as the server inspects it:
a number, a string, an array (only its length is ever read), or anything
else (`other` stands for booleans, objects, `null`, ...). -/
inductive JsVal where
  | num (n : Int)
  | str (s : String)
  | arr (len : Nat)
  | other
deriving DecidableEq, Repr

/-- A candidate operation object: every field the server code ever reads,
each possibly absent (`none` = `undefined`). -/
structure JsOp where
  type : Option JsVal := none
  points : Option JsVal := none
  size : Option JsVal := none
  color : Option JsVal := none
  composite : Option JsVal := none
  shape : Option JsVal := none
  x : Option JsVal := none
  y : Option JsVal := none
  width : Option JsVal := none
  height : Option JsVal := none
  targetId : Option JsVal := none
  userId : Option JsVal := none
  id : Option JsVal := none
deriving DecidableEq, Repr

/-- `Array.isArray(v)`. -/
def jsIsArray : Option JsVal → Bool
  | some (JsVal.arr _) => true
  | _ => false

/-- `v.length` of an array field (0 when not an array; only consulted after
an `Array.isArray` guard in the source). -/
def jsArrayLen : Option JsVal → Nat
  | some (JsVal.arr n) => n
  | _ => 0

/-- `typeof v === "number"`. -/
def jsIsNumber : Option JsVal → Bool
  | some (JsVal.num _) => true
  | _ => false

/-- The numeric value of a field (0 when not a number; only consulted after
a `typeof` guard in the source). -/
def jsNum : Option JsVal → Int
  | some (JsVal.num n) => n
  | _ => 0

/-- `typeof v === "string"`. -/
def jsIsString : Option JsVal → Bool
  | some (JsVal.str _) => true
  | _ => false

/-- The string value of a field ("" when not a string; only consulted after
a `typeof` guard in the source). -/
def jsStr : Option JsVal → String
  | some (JsVal.str s) => s
  | _ => ""

/-- `typeof op.x === "number" && typeof op.y === "number"` (the `hasPos`
test of the `shape:update` branch of `validateOperation`). -/
def hasPosB (op : JsOp) : Bool :=
  jsIsNumber op.x && jsIsNumber op.y

/-- `typeof op.width === "number" && op.width > 0 && typeof op.height ===
"number" && op.height > 0` (the `hasWH` test of `validateOperation`). -/
def hasWHB (op : JsOp) : Bool :=
  jsIsNumber op.width && jsNum op.width > 0 && jsIsNumber op.height && jsNum op.height > 0

/-- `typeof op.color === "string"` (the `hasColor` test of the
`shape:update` branch of `validateOperation`). -/
def hasColorB (op : JsOp) : Bool :=
  jsIsString op.color

/-- `typeof op.size === "number" && op.size > 0` (the `hasLegacySize` test
of the `shape` branch of `validateOperation`). -/
def hasLegacySizeB (op : JsOp) : Bool :=
  jsIsNumber op.size && jsNum op.size > 0

/-- `validateOperation(op)` from `src/server/drawing-state.js` lines
101-139.  A `none` argument models a falsy `op` (the `if (!op)` guard);
throwing is modelled as returning `.error` with the thrown message. -/
def validateOperation : Option JsOp → Except String Unit
  | none => .error "Empty operation"
  | some op =>
    if op.type = some (JsVal.str "stroke") then
      if ¬ (jsIsArray op.points) ∨ jsArrayLen op.points < 2 then
        .error "Stroke must contain at least two points"
      else if ¬ (jsIsNumber op.size) ∨ jsNum op.size ≤ 0 then
        .error "Invalid stroke size"
      else if ¬ (jsIsString op.color) then
        .error "Invalid color"
      else if op.composite ≠ some (JsVal.str "source-over") ∧
              op.composite ≠ some (JsVal.str "destination-out") then
        .error "Invalid composite mode"
      else .ok ()
    else if op.type = some (JsVal.str "shape") then
      if ¬ (op.shape = some (JsVal.str "circle") ∨ op.shape = some (JsVal.str "square") ∨
            op.shape = some (JsVal.str "triangle")) then
        .error "Invalid shape type"
      else if ¬ (jsIsNumber op.x) ∨ ¬ (jsIsNumber op.y) then
        .error "Invalid shape position"
      else if ¬ (hasLegacySizeB op) ∧ ¬ (hasWHB op) then
        .error "Invalid shape dimensions"
      else if ¬ (jsIsString op.color) then
        .error "Invalid color"
      else .ok ()
    else if op.type = some (JsVal.str "shape:update") then
      if ¬ (jsIsString op.targetId) ∨ (jsStr op.targetId).length = 0 then
        .error "Missing targetId"
      else if ¬ (hasPosB op) ∧ ¬ (hasWHB op) ∧ ¬ (hasColorB op) then
        .error "Empty shape update"
      else .ok ()
    else .error "Unsupported operation type"

/-- The per-room log state of `DrawingState`: the operation list, the redo
stack, and the version counter.  The end of each list is the "top" that
`push`/`pop` act on, matching the JS arrays. -/
structure DrawingState where
  operations : List JsOp
  redoStack : List JsOp
  version : Nat
deriving DecidableEq, Repr

/-- The `DrawingState` constructor: empty log, empty redo stack, version 0. -/
def DrawingState.init : DrawingState := ⟨[], [], 0⟩

/-- `DrawingState.addOperation(op)`: validate, then push onto `operations`,
clear the redo stack, and bump the version.  A thrown validation error is
modelled as `.error` paired with the unchanged state. -/
def DrawingState.addOperation (s : DrawingState) (candidate : Option JsOp) :
    Except String Unit × DrawingState :=
  match validateOperation candidate, candidate with
  | .error e, _ => (.error e, s)
  | .ok _, some op =>
      (.ok (), ⟨s.operations ++ [op], [], s.version + 1⟩)
  | .ok _, none => (.error "Empty operation", s)

/-- `DrawingState.undo()`: pop the last operation (if any) onto the redo
stack and bump the version; returns the JS boolean result. -/
def DrawingState.undo (s : DrawingState) : Bool × DrawingState :=
  match s.operations.getLast? with
  | none => (false, s)
  | some op => (true, ⟨s.operations.dropLast, s.redoStack ++ [op], s.version + 1⟩)

/-- `DrawingState.redo()`: pop the last undone operation (if any) back onto
`operations` and bump the version; returns the JS boolean result. -/
def DrawingState.redo (s : DrawingState) : Bool × DrawingState :=
  match s.redoStack.getLast? with
  | none => (false, s)
  | some op => (true, ⟨s.operations ++ [op], s.redoStack.dropLast, s.version + 1⟩)

/-- The value-level content of a snapshot: `{version, operations}`. -/
structure Snapshot where
  version : Nat
  operations : List JsOp
deriving DecidableEq, Repr

/-- `DrawingState.getSnapshot()` seen as pure data: the version and the
current operation sequence.  (Reference/aliasing behaviour of the JS
object it returns is modelled separately by `RefState` below.) -/
def DrawingState.getSnapshot (s : DrawingState) : Snapshot :=
  ⟨s.version, s.operations⟩

/-- `op.userId !== userId` — the kept-entry test of `removeByUser`: a
strict comparison, so an absent or non-string `userId` field never equals
the string argument and the entry is kept. -/
def keepsOp (op : JsOp) (userId : String) : Bool :=
  match op.userId with
  | some (JsVal.str s) => s ≠ userId
  | _ => true

/-- The heterogeneous JS return value of `removeByUser`:
`false` (falsy `userId`) or a removed count. -/
inductive RemoveResult where
  | rfalse
  | count (n : Nat)
deriving DecidableEq, Repr

/-- `DrawingState.removeByUser(userId)`: early `return false` on a falsy
`userId` (the empty string); otherwise rebuild `operations` keeping entries
whose author differs, unconditionally clear the redo stack, and bump the
version only when the removed count is nonzero. -/
def DrawingState.removeByUser (s : DrawingState) (userId : String) :
    RemoveResult × DrawingState :=
  if userId = "" then (RemoveResult.rfalse, s)
  else
    let remaining := s.operations.filter (fun op => keepsOp op userId)
    let removed := s.operations.length - remaining.length
    if removed > 0 then
      (RemoveResult.count removed, ⟨remaining, [], s.version + 1⟩)
    else
      (RemoveResult.count 0, ⟨remaining, [], s.version⟩)

/-- `DrawingState.clearAll()`: record the prior count, unconditionally
empty both `operations` and `redoStack`, and bump the version only when
the prior count was nonzero. -/
def DrawingState.clearAll (s : DrawingState) : Nat × DrawingState :=
  let removed := s.operations.length
  (removed, ⟨[], [], if removed > 0 then s.version + 1 else s.version⟩)

/-- One call against the log: every public `DrawingState` method. -/
inductive LogCall where
  | add (candidate : Option JsOp)
  | undoCall
  | redoCall
  | removeCall (userId : String)
  | clearCall
  | snapshotCall
deriving DecidableEq, Repr

/-- The state after a call (the log each method leaves behind). -/
def applyCall (s : DrawingState) : LogCall → DrawingState
  | LogCall.add candidate => (s.addOperation candidate).2
  | LogCall.undoCall => s.undo.2
  | LogCall.redoCall => s.redo.2
  | LogCall.removeCall userId => (s.removeByUser userId).2
  | LogCall.clearCall => s.clearAll.2
  | LogCall.snapshotCall => s

/-- The spec's notion of a *successful mutation*: a valid append, an undo
with non-empty `operations`, a redo with non-empty `redoStack`, a removal
dropping at least one entry, or a clear of a non-empty log.  A snapshot is
never a mutation. -/
def mutationSucceeds (s : DrawingState) : LogCall → Bool
  | LogCall.add candidate => (validateOperation candidate).toBool
  | LogCall.undoCall => !s.operations.isEmpty
  | LogCall.redoCall => !s.redoStack.isEmpty
  | LogCall.removeCall userId =>
      userId ≠ "" && s.operations.any (fun op => !(keepsOp op userId))
  | LogCall.clearCall => !s.operations.isEmpty
  | LogCall.snapshotCall => false

/-- The user payload registered for a connection:
`{userId, displayName, color}`. -/
structure Presence where
  userId : String
  displayName : String
  color : String
deriving DecidableEq, Repr

/-- One room record of the `RoomManager` map:
`{ state: DrawingState, users: Map<socketId, user> }`. -/
structure Room where
  state : DrawingState
  users : List (String × Presence)
deriving DecidableEq, Repr

/-- The room record freshly built by `ensureRoom`:
`{ state: new DrawingState(), users: new Map() }`. -/
def Room.empty : Room := ⟨DrawingState.init, []⟩

/-- `RoomManager`: the `roomId -> room` map, modelled as an association
list (keys unique by construction of `ensureRoom`). -/
structure RoomManager where
  rooms : List (String × Room)
deriving DecidableEq, Repr

/-- `RoomManager.ensureRoom(roomId)`: insert a fresh room iff the key is
absent. -/
def RoomManager.ensureRoom (m : RoomManager) (roomId : String) : RoomManager :=
  if (m.rooms.lookup roomId).isSome then m
  else ⟨m.rooms ++ [(roomId, Room.empty)]⟩

/-- `RoomManager.getState(roomId)`: ensure the room, then return its
drawing state (the `none` branch is unreachable after `ensureRoom`).  The
resulting registry is returned too, since `ensureRoom` may extend it. -/
def RoomManager.getState (m : RoomManager) (roomId : String) :
    DrawingState × RoomManager :=
  let m' := m.ensureRoom roomId
  match m'.rooms.lookup roomId with
  | some room => (room.state, m')
  | none => (DrawingState.init, m')

/-- `RoomManager.getUsers(roomId)`: ensure the room, then return the array
of present user payloads (the `none` branch is unreachable). -/
def RoomManager.getUsers (m : RoomManager) (roomId : String) :
    List Presence × RoomManager :=
  let m' := m.ensureRoom roomId
  match m'.rooms.lookup roomId with
  | some room => (room.users.map Prod.snd, m')
  | none => ([], m')

/-!
Reference-level model of the log, for the aliasing behaviour of
`getSnapshot`.  JS arrays are mutable objects: `this.operations` holds a
*reference* into a heap of arrays, `push`/`length = 0` mutate in place,
and `getSnapshot` hands that same reference out.  The heap is a function
from reference ids to array contents.
-/

/-- `DrawingState` with array identity made explicit: `opsRef`/`redoRef`
are the references held in `this.operations`/`this.redoStack`, `heap`
gives each reference its current contents. -/
structure RefState where
  heap : Nat → List JsOp
  opsRef : Nat
  redoRef : Nat
  version : Nat

/-- A fresh `DrawingState`: two distinct empty arrays, version 0. -/
def RefState.init : RefState :=
  ⟨fun _ => [], 0, 1, 0⟩

/-- The well-formedness a real `DrawingState` always has: `operations` and
`redoStack` are distinct array objects. -/
def RefState.WF (s : RefState) : Prop := s.opsRef ≠ s.redoRef

/-- The snapshot object `getSnapshot` returns: the version copied by
value, the `operations` field holding the array *reference*. -/
structure SnapshotRef where
  version : Nat
  operationsRef : Nat
deriving DecidableEq, Repr

/-- `DrawingState.getSnapshot()` at the reference level: `{ version:
this.version, operations: this.operations }` — the array is not copied. -/
def RefState.getSnapshot (s : RefState) : SnapshotRef :=
  ⟨s.version, s.opsRef⟩

/-- Reading a snapshot's `operations` through the current heap. -/
def snapshotOps (s : RefState) (snap : SnapshotRef) : List JsOp :=
  s.heap snap.operationsRef

/-- `DrawingState.addOperation(op)` at the reference level: validate, then
`this.operations.push(op)` (in-place), `this.redoStack.length = 0`
(in-place), `this.version += 1`. -/
def RefState.addOperation (s : RefState) (candidate : Option JsOp) :
    Except String Unit × RefState :=
  match validateOperation candidate, candidate with
  | .error e, _ => (.error e, s)
  | .ok _, some op =>
      let h1 := Function.update s.heap s.opsRef (s.heap s.opsRef ++ [op])
      let h2 := Function.update h1 s.redoRef []
      (.ok (), { s with heap := h2, version := s.version + 1 })
  | .ok _, none => (.error "Empty operation", s)

/-- A concrete valid stroke operation (2 points, size 4, color "#000",
composite "source-over"), used for concrete evaluations. -/
def sampleStroke : JsOp :=
  { type := some (JsVal.str "stroke")
    points := some (JsVal.arr 2)
    size := some (JsVal.num 4)
    color := some (JsVal.str "#000")
    composite := some (JsVal.str "source-over")
    userId := some (JsVal.str "userA") }

/-- A concrete valid shape operation (circle at the origin, 10 by 10,
color "#f00", authored by "userB", stamped id "shape-1"). -/
def sampleShape : JsOp :=
  { type := some (JsVal.str "shape")
    shape := some (JsVal.str "circle")
    x := some (JsVal.num 0)
    y := some (JsVal.num 0)
    width := some (JsVal.num 10)
    height := some (JsVal.num 10)
    color := some (JsVal.str "#f00")
    userId := some (JsVal.str "userB")
    id := some (JsVal.str "shape-1") }

/-- An invalid stroke candidate: only one point. -/
def shortStroke : JsOp :=
  { type := some (JsVal.str "stroke")
    points := some (JsVal.arr 1)
    size := some (JsVal.num 4)
    color := some (JsVal.str "#000")
    composite := some (JsVal.str "source-over") }

/-- A valid shape:update candidate whose author field is the empty
string. -/
def anonymousShapeUpdate : JsOp :=
  { type := some (JsVal.str "shape:update")
    targetId := some (JsVal.str "s1")
    color := some (JsVal.str "#f00")
    userId := some (JsVal.str "") }

/-- A valid shape:update candidate whose `targetId` ("ghost") matches no
stamped operation id in the sample logs. -/
def ghostUpdate : JsOp :=
  { type := some (JsVal.str "shape:update")
    targetId := some (JsVal.str "ghost")
    color := some (JsVal.str "#0f0")
    userId := some (JsVal.str "userA") }

/-- Helper: a non-empty string has non-zero length. -/
theorem strLength_ne_zero {s : String} (h : s ≠ "") : s.length ≠ 0 := by
  intro h0
  apply h
  cases s with
  | mk data =>
    cases data with
    | nil => rfl
    | cons c t => simp [String.length] at h0

/-- C1: a candidate passing the §4.1 validation rules is appended: the
call succeeds, the operation is pushed onto the end of `operations`, the
redo buffer becomes empty, and `version` increases by exactly 1. -/
theorem C1_append_valid (s : DrawingState) (op : JsOp)
    (h : validateOperation (some op) = .ok ()) :
    s.addOperation (some op) =
      (.ok (), ⟨s.operations ++ [op], [], s.version + 1⟩) := by
  simp [DrawingState.addOperation, h]

/-- C1 witness: appending the sample stroke to a log with one operation
and a non-empty redo buffer. -/
theorem C1_append_valid_witness :
    validateOperation (some sampleStroke) = .ok () ∧
    (DrawingState.mk [sampleShape] [sampleShape] 3).addOperation (some sampleStroke) =
      (.ok (), ⟨[sampleShape, sampleStroke], [], 4⟩) :=
  ⟨rfl, C1_append_valid ⟨[sampleShape], [sampleShape], 3⟩ sampleStroke rfl⟩

/-- C2: a candidate rejected by the validator leaves the log completely
unchanged: `addOperation` returns the validation error and the state
(operations, redo buffer, version) it was given. -/
theorem C2_append_invalid (s : DrawingState) (candidate : Option JsOp)
    (e : String) (h : validateOperation candidate = .error e) :
    s.addOperation candidate = (.error e, s) := by
  simp [DrawingState.addOperation, h]

/-- C2 witness: a one-point stroke is rejected and the log is unchanged. -/
theorem C2_append_invalid_witness :
    validateOperation (some shortStroke) =
      .error "Stroke must contain at least two points" ∧
    (DrawingState.mk [sampleShape] [sampleStroke] 3).addOperation (some shortStroke) =
      (.error "Stroke must contain at least two points",
        DrawingState.mk [sampleShape] [sampleStroke] 3) :=
  ⟨rfl,
    C2_append_invalid ⟨[sampleShape], [sampleStroke], 3⟩ (some shortStroke) _ rfl⟩

/-- C3 counterexample: in the state with no operations, one redo entry and
version 2 (obtained by appending then undoing), no operation is authored
by "userB", and `removeByUser "userB"` does report zero removed and keeps
`operations` and `version` — but it clears the redo buffer, so the state
is *not* untouched, contradicting the claim. -/
theorem C3_counterexample :
    (∀ op ∈ (DrawingState.mk [] [sampleStroke] 2).operations, keepsOp op "userB") ∧
    (DrawingState.mk [] [sampleStroke] 2).removeByUser "userB" =
      (RemoveResult.count 0, DrawingState.mk [] [] 2) ∧
    (DrawingState.mk [] [] 2).redoStack ≠
      (DrawingState.mk [] [sampleStroke] 2).redoStack := by
  refine ⟨by decide, by decide, by decide⟩

/-- C3 amended: when a non-empty `userId` matches no operation,
`removeByUser` returns a zero count and leaves `operations` and `version`
unchanged, but it unconditionally clears the redo buffer. -/
theorem C3_remove_zero_matches (s : DrawingState) (u : String)
    (hu : u ≠ "") (h : ∀ op ∈ s.operations, keepsOp op u) :
    s.removeByUser u = (RemoveResult.count 0, ⟨s.operations, [], s.version⟩) := by
  have hf : s.operations.filter (fun op => keepsOp op u) = s.operations :=
    List.filter_eq_self.mpr h
  simp [DrawingState.removeByUser, hu, hf]

/-- C3 amended witness: removing "userB" from a log authored only by
"userA" reports zero, keeps operations and version, clears the redo
buffer. -/
theorem C3_remove_zero_matches_witness :
    ("userB" : String) ≠ "" ∧
    (∀ op ∈ (DrawingState.mk [sampleStroke] [sampleStroke] 3).operations,
      keepsOp op "userB") ∧
    (DrawingState.mk [sampleStroke] [sampleStroke] 3).removeByUser "userB" =
      (RemoveResult.count 0, ⟨[sampleStroke], [], 3⟩) :=
  ⟨by decide, by decide,
    C3_remove_zero_matches ⟨[sampleStroke], [sampleStroke], 3⟩ "userB"
      (by decide) (by decide)⟩

/-- C4 counterexample: in the state with empty `operations`, one redo
entry and version 2 (reached right after an undo), `clearAll` returns 0
and keeps `version` — but it empties the redo buffer, so the call is not
free of state change, contradicting the claim. -/
theorem C4_counterexample :
    (DrawingState.mk [] [sampleStroke] 2).operations = [] ∧
    (DrawingState.mk [] [sampleStroke] 2).clearAll =
      (0, DrawingState.mk [] [] 2) ∧
    (DrawingState.mk [] [] 2).redoStack ≠
      (DrawingState.mk [] [sampleStroke] 2).redoStack := by
  refine ⟨by decide, by decide, by decide⟩

/-- C4 amended: on an empty `operations` list, `clearAll` returns 0 and
leaves `operations` and `version` unchanged, but it unconditionally
empties the redo buffer. -/
theorem C4_clearAll_empty (s : DrawingState) (h : s.operations = []) :
    s.clearAll = (0, ⟨[], [], s.version⟩) := by
  simp [DrawingState.clearAll, h]

/-- C4 amended witness: `clearAll` right after an undo. -/
theorem C4_clearAll_empty_witness :
    (DrawingState.mk [] [sampleStroke] 2).operations = [] ∧
    (DrawingState.mk [] [sampleStroke] 2).clearAll = (0, ⟨[], [], 2⟩) :=
  ⟨by decide, C4_clearAll_empty ⟨[], [sampleStroke], 2⟩ (by decide)⟩

/-- C5 counterexample: take a snapshot of the fresh log, then perform a
successful append.  The snapshot object's `operations` field is the live
array reference, so reading it now yields the post-append sequence, not
the pre-append one — the snapshot is not a by-value copy, contradicting
the claim. -/
theorem C5_counterexample :
    (RefState.init.addOperation (some sampleStroke)).1 = Except.ok () ∧
    snapshotOps (RefState.init.addOperation (some sampleStroke)).2
        RefState.init.getSnapshot ≠
      snapshotOps RefState.init RefState.init.getSnapshot := by
  refine ⟨rfl, ?_⟩
  have hv : validateOperation (some sampleStroke) = .ok () := rfl
  have h1 : snapshotOps (RefState.init.addOperation (some sampleStroke)).2
      RefState.init.getSnapshot = [sampleStroke] := by
    simp [RefState.init, RefState.addOperation, hv, RefState.getSnapshot, snapshotOps,
      Function.update]
  have h2 : snapshotOps RefState.init RefState.init.getSnapshot = [] := rfl
  rw [h1, h2]
  simp

/-- C5 amended: `getSnapshot` copies `version` by value but hands out the
live `operations` array by reference: after a subsequent successful
append, the snapshot's `version` still equals the pre-append version,
while reading the snapshot's `operations` yields the pre-append sequence
with the new operation pushed on (i.e. the post-append array), not the
pre-append value. -/
theorem C5_snapshot_aliasing (s : RefState) (op : JsOp)
    (hwf : s.WF) (hv : validateOperation (some op) = .ok ()) :
    (s.getSnapshot).version = s.version ∧
    snapshotOps (s.addOperation (some op)).2 s.getSnapshot =
      snapshotOps s s.getSnapshot ++ [op] := by
  refine ⟨rfl, ?_⟩
  simp only [RefState.addOperation, hv, snapshotOps, RefState.getSnapshot]
  rw [Function.update_noteq hwf, Function.update_same]

/-- C5 amended witness: the fresh log, the sample stroke. -/
theorem C5_snapshot_aliasing_witness :
    RefState.init.WF ∧
    validateOperation (some sampleStroke) = .ok () ∧
    ((RefState.init.getSnapshot).version = RefState.init.version ∧
      snapshotOps (RefState.init.addOperation (some sampleStroke)).2
          RefState.init.getSnapshot =
        snapshotOps RefState.init RefState.init.getSnapshot ++ [sampleStroke]) :=
  ⟨by show (0 : Nat) ≠ 1; decide, rfl,
    C5_snapshot_aliasing RefState.init sampleStroke (by show (0 : Nat) ≠ 1; decide) rfl⟩

/-- C6: on a log with non-empty `operations`, `undo` then `redo` both
succeed, `operations` is restored to exactly its prior sequence, and
`version` ends at its initial value plus 2. -/
theorem C6_undo_redo_roundtrip (s : DrawingState) (h : s.operations ≠ []) :
    s.undo.1 = true ∧
    (s.undo.2).redo.1 = true ∧
    ((s.undo.2).redo.2).operations = s.operations ∧
    ((s.undo.2).redo.2).version = s.version + 2 := by
  have hu : s.undo = (true,
      ⟨s.operations.dropLast, s.redoStack ++ [s.operations.getLast h], s.version + 1⟩) := by
    simp [DrawingState.undo, List.getLast?_eq_getLast s.operations h]
  have hr : DrawingState.redo
      ⟨s.operations.dropLast, s.redoStack ++ [s.operations.getLast h], s.version + 1⟩ =
      (true, ⟨s.operations.dropLast ++ [s.operations.getLast h],
        (s.redoStack ++ [s.operations.getLast h]).dropLast, s.version + 2⟩) := by
    simp [DrawingState.redo, List.getLast?_concat]
  rw [hu]
  rw [hr]
  exact ⟨rfl, rfl, List.dropLast_append_getLast h, rfl⟩

/-- C6 witness: a one-operation log at version 5. -/
theorem C6_undo_redo_roundtrip_witness :
    (DrawingState.mk [sampleStroke] [] 5).operations ≠ [] ∧
    ((DrawingState.mk [sampleStroke] [] 5).undo.1 = true ∧
      ((DrawingState.mk [sampleStroke] [] 5).undo.2).redo.1 = true ∧
      (((DrawingState.mk [sampleStroke] [] 5).undo.2).redo.2).operations =
        (DrawingState.mk [sampleStroke] [] 5).operations ∧
      (((DrawingState.mk [sampleStroke] [] 5).undo.2).redo.2).version = 5 + 2) :=
  ⟨by decide, C6_undo_redo_roundtrip ⟨[sampleStroke], [], 5⟩ (by decide)⟩

/-- C7 counterexample: with one logged operation whose author field is the
empty string, `removeByUser ""` takes the falsy-userId early return: it
removes nothing and returns `false`, while the claim demands the
""-authored entry be dropped and the dropped count (1) returned. -/
theorem C7_counterexample :
    (DrawingState.removeByUser ⟨[anonymousShapeUpdate], [], 1⟩ "").2.operations ≠
      List.filter (fun op => keepsOp op "") [anonymousShapeUpdate] ∧
    (DrawingState.removeByUser ⟨[anonymousShapeUpdate], [], 1⟩ "").1 ≠
      RemoveResult.count 1 := by
  refine ⟨by decide, by decide⟩

/-- C7 amended: for every log state and every *non-empty* userId `u`,
`removeByUser u` removes exactly the operations authored by `u`: the
resulting `operations` is the prior sequence filtered to entries whose
author differs from `u` (order preserved), and the returned count is the
number of entries dropped.  (For the empty — falsy — userId the call
returns `false` and removes nothing.) -/
theorem C7_remove_filters_exactly (s : DrawingState) (u : String) (hu : u ≠ "") :
    (s.removeByUser u).2.operations =
      s.operations.filter (fun op => keepsOp op u) ∧
    (s.removeByUser u).1 = RemoveResult.count
      (s.operations.length - (s.operations.filter (fun op => keepsOp op u)).length) := by
  unfold DrawingState.removeByUser
  rw [if_neg hu]
  by_cases hr :
      s.operations.length - (s.operations.filter (fun op => keepsOp op u)).length > 0
  · simp [hr]
  · simp [hr]
    omega

/-- C7 amended witness: removing "userA" from a two-operation log drops
exactly the "userA"-authored stroke and reports one removed. -/
theorem C7_remove_filters_exactly_witness :
    ("userA" : String) ≠ "" ∧
    ((DrawingState.mk [sampleStroke, sampleShape] [] 2).removeByUser "userA").2.operations =
      (DrawingState.mk [sampleStroke, sampleShape] [] 2).operations.filter
        (fun op => keepsOp op "userA") ∧
    ((DrawingState.mk [sampleStroke, sampleShape] [] 2).removeByUser "userA").1 =
      RemoveResult.count 1 := by
  have h := C7_remove_filters_exactly ⟨[sampleStroke, sampleShape], [], 2⟩ "userA" (by decide)
  refine ⟨by decide, h.1, ?_⟩
  rw [h.2]
  decide

/-- Helper: the removal count is positive exactly when some logged entry
fails the kept-entry test. -/
theorem any_dropped_iff_removed_pos (s : DrawingState) (u : String) :
    (s.operations.any (fun op => !(keepsOp op u)) = true) ↔
      0 < s.operations.length -
        (s.operations.filter (fun op => keepsOp op u)).length := by
  rw [List.any_eq_true, Nat.sub_pos_iff_lt, List.length_filter_lt_length_iff_exists]
  simp

/-- C8: `version` changes on and only on every successful mutation — each
call bumps it by exactly 1 when the mutation succeeds (valid append,
non-empty undo/redo, nonzero removal, non-empty clear) and leaves it
unchanged otherwise (snapshots included); in particular it never
decreases. -/
theorem C8_version_per_call (s : DrawingState) (c : LogCall) :
    (applyCall s c).version =
      (if mutationSucceeds s c then s.version + 1 else s.version) ∧
    s.version ≤ (applyCall s c).version := by
  have key : (applyCall s c).version =
      (if mutationSucceeds s c then s.version + 1 else s.version) := by
    cases c with
    | add candidate =>
      cases candidate with
      | none =>
        simp [applyCall, mutationSucceeds, DrawingState.addOperation,
          validateOperation, Except.toBool]
      | some op =>
        cases hv : validateOperation (some op) with
        | error e =>
          simp [applyCall, mutationSucceeds, DrawingState.addOperation, hv,
            Except.toBool]
        | ok u =>
          simp [applyCall, mutationSucceeds, DrawingState.addOperation, hv,
            Except.toBool]
    | undoCall =>
      cases hl : s.operations.getLast? with
      | none =>
        have he : s.operations = [] := List.getLast?_eq_none_iff.mp hl
        simp [applyCall, DrawingState.undo, hl, mutationSucceeds, he]
      | some op =>
        have hne : s.operations ≠ [] := by
          intro he
          rw [he] at hl
          simp at hl
        have hee : s.operations.isEmpty = false := by
          rw [← Bool.not_eq_true, List.isEmpty_iff]
          exact hne
        simp [applyCall, DrawingState.undo, hl, mutationSucceeds, hee]
    | redoCall =>
      cases hl : s.redoStack.getLast? with
      | none =>
        have he : s.redoStack = [] := List.getLast?_eq_none_iff.mp hl
        simp [applyCall, DrawingState.redo, hl, mutationSucceeds, he]
      | some op =>
        have hne : s.redoStack ≠ [] := by
          intro he
          rw [he] at hl
          simp at hl
        have hee : s.redoStack.isEmpty = false := by
          rw [← Bool.not_eq_true, List.isEmpty_iff]
          exact hne
        simp [applyCall, DrawingState.redo, hl, mutationSucceeds, hee]
    | removeCall u =>
      by_cases hu : u = ""
      · simp [applyCall, DrawingState.removeByUser, hu, mutationSucceeds]
      · by_cases hr : 0 < s.operations.length -
            (s.operations.filter (fun op => keepsOp op u)).length
        · have hany := (any_dropped_iff_removed_pos s u).mpr hr
          simp [applyCall, DrawingState.removeByUser, hu, hr, mutationSucceeds, hany]
        · have hany : s.operations.any (fun op => !(keepsOp op u)) = false := by
            rw [← Bool.not_eq_true]
            intro hx
            exact hr ((any_dropped_iff_removed_pos s u).mp hx)
          simp [applyCall, DrawingState.removeByUser, hu, hr, mutationSucceeds, hany]
    | clearCall =>
      cases hs : s.operations with
      | nil => simp [applyCall, DrawingState.clearAll, hs, mutationSucceeds]
      | cons a t => simp [applyCall, DrawingState.clearAll, hs, mutationSucceeds]
    | snapshotCall => simp [applyCall, mutationSucceeds]
  refine ⟨key, ?_⟩
  rw [key]
  split <;> omega

/-- Helper: `lookup` skips a prefix in which the key is absent. -/
theorem lookup_append_of_none {β : Type} (l1 l2 : List (String × β)) (a : String)
    (h : l1.lookup a = none) : (l1 ++ l2).lookup a = l2.lookup a := by
  induction l1 with
  | nil => simp
  | cons p t ih =>
    cases p with
    | mk k v =>
      by_cases hk : a = k
      · exfalso
        have : ((k, v) :: t).lookup a = some v := by simp [List.lookup, hk]
        rw [h] at this
        cases this
      · have hb : (a == k) = false := by simp [hk]
        have ht : t.lookup a = none := by
          have : ((k, v) :: t).lookup a = t.lookup a := by simp [List.lookup, hb]
          rw [← this]
          exact h
        rw [List.cons_append]
        have : (((k, v) :: (t ++ l2))).lookup a = (t ++ l2).lookup a := by
          simp [List.lookup, hb]
        rw [this]
        exact ih ht

/-- Helper: `ensureRoom` on an already-present key is the identity. -/
theorem ensureRoom_of_isSome (m : RoomManager) (roomId : String)
    (h : (m.rooms.lookup roomId).isSome = true) : m.ensureRoom roomId = m := by
  unfold RoomManager.ensureRoom
  rw [if_pos h]

/-- Helper: `ensureRoom` on an absent key appends the empty room, which is
then found by `lookup`. -/
theorem ensureRoom_of_none (m : RoomManager) (roomId : String)
    (h : m.rooms.lookup roomId = none) :
    (m.ensureRoom roomId).rooms.lookup roomId = some Room.empty := by
  have hcond : ¬ ((m.rooms.lookup roomId).isSome = true) := by
    rw [h]
    simp
  unfold RoomManager.ensureRoom
  rw [if_neg hcond]
  show (m.rooms ++ [(roomId, Room.empty)]).lookup roomId = some Room.empty
  rw [lookup_append_of_none _ _ _ h]
  simp [List.lookup]

/-- C9: `ensureRoom` creates a room with an empty drawing state and empty
membership iff none exists (a second call changes nothing, and a call on
an existing key changes nothing), and the accessors `getState`/`getUsers`
implicitly ensure first, so a never-before-referenced roomId yields the
empty log (version 0, no operations) and an empty member list. -/
theorem C9_room_registry (m : RoomManager) (roomId : String) :
    ((m.ensureRoom roomId).ensureRoom roomId = m.ensureRoom roomId) ∧
    ((m.rooms.lookup roomId).isSome = true → m.ensureRoom roomId = m) ∧
    (m.rooms.lookup roomId = none →
      (m.ensureRoom roomId).rooms.lookup roomId = some Room.empty ∧
      (m.getState roomId).1 = DrawingState.init ∧
      (m.getState roomId).1.version = 0 ∧
      (m.getState roomId).1.operations = [] ∧
      (m.getUsers roomId).1 = []) := by
  refine ⟨?_, ensureRoom_of_isSome m roomId, ?_⟩
  · by_cases h : (m.rooms.lookup roomId).isSome = true
    · have he := ensureRoom_of_isSome m roomId h
      rw [he]
      exact he
    · have hn : m.rooms.lookup roomId = none := by
        cases hl : m.rooms.lookup roomId with
        | none => rfl
        | some r =>
          rw [hl] at h
          simp at h
      have h1 := ensureRoom_of_none m roomId hn
      exact ensureRoom_of_isSome (m.ensureRoom roomId) roomId (by rw [h1]; rfl)
  · intro h
    have h1 := ensureRoom_of_none m roomId h
    refine ⟨h1, ?_, ?_, ?_, ?_⟩
    · simp only [RoomManager.getState]
      rw [h1]
      rfl
    · simp only [RoomManager.getState]
      rw [h1]
      rfl
    · simp only [RoomManager.getState]
      rw [h1]
      rfl
    · simp only [RoomManager.getUsers]
      rw [h1]
      simp [Room.empty]

/-- C9 witness: the empty registry and room "lobby". -/
theorem C9_room_registry_witness :
    ((RoomManager.mk []).rooms.lookup "lobby" = none) ∧
    (((RoomManager.mk []).ensureRoom "lobby").ensureRoom "lobby" =
      (RoomManager.mk []).ensureRoom "lobby") ∧
    (((RoomManager.mk []).ensureRoom "lobby").rooms.lookup "lobby" =
      some Room.empty ∧
      ((RoomManager.mk []).getState "lobby").1 = DrawingState.init ∧
      ((RoomManager.mk []).getState "lobby").1.version = 0 ∧
      ((RoomManager.mk []).getState "lobby").1.operations = [] ∧
      ((RoomManager.mk []).getUsers "lobby").1 = []) := by
  have h := C9_room_registry (RoomManager.mk []) "lobby"
  exact ⟨rfl, h.1, h.2.2 rfl⟩

/-- C10: validating a `shape:update` performs no referential check against
the log: any candidate with a non-empty string `targetId` and at least one
well-typed field (numeric x,y pair, positive width/height pair, or string
color) is appended successfully in every log state — in particular in
states where no logged operation carries an id equal to `targetId`. -/
theorem C10_shape_update_unreferenced (s : DrawingState) (op : JsOp) (tid : String)
    (htype : op.type = some (JsVal.str "shape:update"))
    (htid : op.targetId = some (JsVal.str tid)) (hne : tid ≠ "")
    (hfield : hasPosB op ∨ hasWHB op ∨ hasColorB op)
    (hnoref : ∀ o ∈ s.operations, o.id ≠ some (JsVal.str tid)) :
    s.addOperation (some op) =
      (.ok (), ⟨s.operations ++ [op], [], s.version + 1⟩) := by
  have htgt : ¬ (¬ jsIsString op.targetId = true ∨ (jsStr op.targetId).length = 0) := by
    rw [htid]
    push_neg
    constructor
    · simp [jsIsString]
    · show (jsStr (some (JsVal.str tid))).length ≠ 0
      exact strLength_ne_zero hne
  have hfld : ¬ (¬ hasPosB op = true ∧ ¬ hasWHB op = true ∧ ¬ hasColorB op = true) := by
    rcases hfield with hf | hf | hf <;> simp [hf]
  have hv : validateOperation (some op) = .ok () := by
    simp only [validateOperation]
    rw [htype]
    rw [if_neg (by decide), if_neg (by decide), if_pos rfl, if_neg htgt, if_neg hfld]
  simp [DrawingState.addOperation, hv]

/-- C10 witness: a log holding only the sample shape (id "shape-1") and a
shape:update targeting the unknown id "ghost". -/
theorem C10_shape_update_unreferenced_witness :
    (∀ o ∈ (DrawingState.mk [sampleShape] [] 1).operations,
      o.id ≠ some (JsVal.str "ghost")) ∧
    (DrawingState.mk [sampleShape] [] 1).addOperation (some ghostUpdate) =
      (.ok (), ⟨[sampleShape, ghostUpdate], [], 2⟩) :=
  ⟨by decide,
    C10_shape_update_unreferenced ⟨[sampleShape], [], 1⟩ ghostUpdate "ghost"
      rfl rfl (by decide) (Or.inr (Or.inr (by decide))) (by decide)⟩
